import Mathlib

/-!
Verification of the bugbug feature-extraction pipeline (`bugbug/bug_features.py`)
and of the bug-snapshot rollback contract, via a shallow embedding in Lean 4.

Conventions of the embedding:
* Python dicts holding feature rows become association lists with overwrite
  insertion (`dinsert`) and first-match lookup (`dlookup`).
* Python exceptions become `Except String` results; the string is the
  exception kind.
* Python numbers (ints, and the floats produced by true division) become `ℚ`.
* Parsed timestamps (`dateutil.parser.parse` applied to `creation_time`) are
  embedded as already-parsed integer numbers of seconds since the epoch; the
  date parser itself is an external collaborator of the core.
* Python string builtins used by the tokenizer are re-implemented by structural
  recursion on the character list, so that concrete runs evaluate in the
  kernel; they are restricted to ASCII, which covers the embedded inputs.
-/

namespace Bugbug

/-! ### Python string builtins -/

/-- Python `str.lower` (ASCII case folding). -/
def pyLower (s : String) : String := String.mk (s.data.map Char.toLower)

/-- Auxiliary loop for `pySplit`. -/
def pySplitAux (sep : Char) : List Char → List Char → List String
  | [], acc => [String.mk acc.reverse]
  | c :: cs, acc =>
    if c = sep then String.mk acc.reverse :: pySplitAux sep cs []
    else pySplitAux sep cs (c :: acc)

/-- Python `str.split(sep)` for a one-character separator: splits at every
occurrence, keeping empty pieces, and `"".split(sep)` gives `[""]`. -/
def pySplit (s : String) (sep : Char) : List String := pySplitAux sep s.data []

/-- Python `needle in s` for a one-character needle. -/
def pyContains (s : String) (c : Char) : Bool := s.data.contains c

/-- Python `str.strip()` (ASCII whitespace). -/
def pyStrip (s : String) : String :=
  String.mk
    (((s.data.dropWhile Char.isWhitespace).reverse.dropWhile Char.isWhitespace).reverse)

/-! ### Whiteboard tokenizer (`whiteboard_keywords`, bug_features.py lines 123-142) -/

/-- Shallow embedding of `whiteboard_keywords` from `bugbug/bug_features.py`:
lower-case the whiteboard; split on the opening bracket; any chunk containing
a closing bracket is split on it, the other chunks are split on a space;
strip every piece and drop the empty ones; finally, for every kept token
containing a colon, also append the part before the first colon
(`split.split(":", 1)[0]` is the head of the full split). -/
def whiteboard_keywords (whiteboard : String) : List String :=
  let paren_splits := pySplit (pyLower whiteboard) '['
  let splits := paren_splits.foldl
    (fun acc ps =>
      if pyContains ps ']' then acc ++ pySplit ps ']' else acc ++ pySplit ps ' ')
    []
  let splits := (splits.map pyStrip).filter (fun s => s ≠ "")
  splits ++ (splits.filter (fun s => pyContains s ':')).map
    (fun s => (pySplit s ':').headD "")

/-- The tokenizer algorithm exactly as the specification words it: lower-case
the string; split on the opening bracket; for each resulting chunk, split on
the closing bracket if the chunk contains one and otherwise split on spaces;
strip every piece and discard empty ones; then, for every kept token
containing a colon, additionally append the substring before the first colon
while also keeping the full token. -/
def whiteboard_keywords_spec (s : String) : List String :=
  let pieces := (pySplit (pyLower s) '[').flatMap
    (fun chunk =>
      if pyContains chunk ']' then pySplit chunk ']' else pySplit chunk ' ')
  let kept := (pieces.map pyStrip).filter (fun t => t ≠ "")
  kept ++ kept.filterMap
    (fun t => if pyContains t ':' then some ((pySplit t ':').headD "") else none)

/-! ### Data model for bugs and feature values -/

/-- One bug comment (only the text is consumed by the embedded features). -/
structure Comment where
  text : String
  deriving DecidableEq

/-- One linked commit, with the metric fields consumed by the commit-derived
features.  `backedoutby` is the Python string field; the empty string is falsy
and means the commit was not backed out. -/
structure Commit where
  author_experience : ℚ
  author_experience_90_days : ℚ
  reviewer_experience : ℚ
  reviewer_experience_90_days : ℚ
  backedoutby : String
  deriving DecidableEq

/-- A bug record, restricted to the fields consumed by the embedded features
and by the pipeline itself.  `creation_time` is the parsed timestamp in
seconds (see the file header). -/
structure Bug where
  id : ℤ
  creator : String
  product : String
  summary : String
  whiteboard : String
  creation_time : ℤ
  comments : List Comment
  commits : List Commit
  deriving DecidableEq

/-- A feature value as stored in a row (Python bool, str or number). -/
inductive FValue where
  | bool : Bool → FValue
  | str : String → FValue
  | num : ℚ → FValue
  deriving DecidableEq

/-- The result of one feature extractor call: Python `None`, a scalar, or a
list/set of items (items are embedded as the strings they interpolate to). -/
inductive FeatureRes where
  | pynone : FeatureRes
  | scalar : FValue → FeatureRes
  | list : List String → FeatureRes
  deriving DecidableEq

/-! ### The `field` helper (bug_features.py lines 24-28) -/

/-- A raw bug record viewed as a Python dict from field names to values, for
the dynamic accesses performed by the `field` helper. -/
abbrev BugDict := List (String × String)

/-- First-match lookup in a raw bug dict (Python `field in bug` / `bug[field]`). -/
def dictFind (bug : BugDict) (f : String) : Option String :=
  match bug with
  | [] => none
  | p :: rest => if p.1 = f then some p.2 else dictFind rest f

/-- Shallow embedding of the module-level `field` helper: return the value of
the named field unless the field is missing or holds one of the sentinel
placeholders `"--"` / `"---"`, in which case return `None`. -/
def field (bug : BugDict) (f : String) : Option String :=
  match dictFind bug f with
  | some v => if v = "--" ∨ v = "---" then none else some v
  | none => none

/-! ### Feature extractors used by the claims -/

/-- Whether an extractor operates on single bugs (`SingleBugFeature`) or on
bug pairs (`CoupleBugFeature`). -/
inductive ExtractorKind where
  | single
  | couple
  deriving DecidableEq

/-- A feature extractor instance.  `tag` models the Python runtime type of the
instance (used by the duplicate check in `BugExtractor.__init__`), `name` the
optional `name` class attribute.  Single-bug extractors receive the bug and
the `reporter_experience` context; couple extractors receive both bugs.  Only
the call path matching `kind` is ever reached by the pipeline dispatch; the
other one is a dead field of the record. -/
structure FeatureExtractor where
  tag : String
  name : Option String
  kind : ExtractorKind
  applySingle : Bug → ℕ → FeatureRes
  applyCouple : Bug → Bug → FeatureRes

/-- The column name the pipeline uses for an extractor: the `name` attribute
when present, otherwise the class name (bug_features.py lines 773-776). -/
def FeatureExtractor.displayName (fe : FeatureExtractor) : String :=
  fe.name.getD fe.tag

/-- Embedding of the `ReporterExperience` extractor (bug_features.py lines
305-309): it returns the `reporter_experience` keyword context unchanged. -/
def reporterExperience : FeatureExtractor where
  tag := "ReporterExperience"
  name := some "# of bugs previously opened by the reporter"
  kind := .single
  applySingle := fun _ reporter_experience => .scalar (.num reporter_experience)
  applyCouple := fun _ _ => .pynone

/-- Embedding of `IsSameProduct.__call__` (bug_features.py lines 611-613). -/
def IsSameProduct (bugs : Bug × Bug) : Bool :=
  bugs.1.product = bugs.2.product

/-- Embedding of `CoupleDeltaCreationDate.__call__` (bug_features.py lines
655-660): the difference of the parsed creation times divided by one day,
as an exact number of (fractional) days. -/
def CoupleDeltaCreationDate (bugs : Bug × Bug) : ℚ :=
  ((bugs.1.creation_time - bugs.2.creation_time : ℤ) : ℚ) / 86400

/-- The commits a bug keeps for the experience averages: those not backed out
(`if not commit["backedoutby"]`). -/
def keptCommits (bug : Bug) : List Commit :=
  bug.commits.filter (fun commit => commit.backedoutby = "")

/-- Embedding of `CommitAuthorExperience.__call__` (bug_features.py lines
436-443): `sum(res) / len(res)` raises `ZeroDivisionError` when `res` is
empty. -/
def CommitAuthorExperience (bug : Bug) : Except String ℚ :=
  let res := (keptCommits bug).map (fun commit => commit.author_experience)
  if res.length = 0 then .error "ZeroDivisionError"
  else .ok (res.sum / (res.length : ℚ))

/-- Embedding of `CommitAuthorExperience90Days.__call__` (lines 446-453). -/
def CommitAuthorExperience90Days (bug : Bug) : Except String ℚ :=
  let res := (keptCommits bug).map (fun commit => commit.author_experience_90_days)
  if res.length = 0 then .error "ZeroDivisionError"
  else .ok (res.sum / (res.length : ℚ))

/-- Embedding of `CommitReviewerExperience.__call__` (lines 456-463). -/
def CommitReviewerExperience (bug : Bug) : Except String ℚ :=
  let res := (keptCommits bug).map (fun commit => commit.reviewer_experience)
  if res.length = 0 then .error "ZeroDivisionError"
  else .ok (res.sum / (res.length : ℚ))

/-- Embedding of `CommitReviewerExperience90Days.__call__` (lines 466-473). -/
def CommitReviewerExperience90Days (bug : Bug) : Except String ℚ :=
  let res := (keptCommits bug).map (fun commit => commit.reviewer_experience_90_days)
  if res.length = 0 then .error "ZeroDivisionError"
  else .ok (res.sum / (res.length : ℚ))

/-! ### Row dictionaries -/

/-- The per-row feature dict `data`. -/
abbrev RowData := List (String × FValue)

/-- Python dict assignment `data[k] = v`: overwrite the binding when the key
is present, append it otherwise. -/
def dinsert : RowData → String → FValue → RowData
  | [], k, v => [(k, v)]
  | p :: d, k, v => if p.1 = k then (k, v) :: d else p :: dinsert d k v

/-- Python dict lookup (first, hence unique, binding of the key). -/
def dlookup (k : String) : RowData → Option FValue
  | [] => none
  | p :: d => if p.1 = k then some p.2 else dlookup k d

/-! ### The extraction pipeline (`BugExtractor`, bug_features.py lines 702-852) -/

/-- A text cleanup function, tagged with its Python runtime type for the
duplicate check in `BugExtractor.__init__`. -/
structure CleanupFunction where
  tag : String
  run : String → String

/-- The `BugExtractor` configuration.  `commit_data` and `rollback_when` are
omitted: the former only triggers the external `get_author_ids` collaborator
and the latter is a parameter of the external rollback routine. -/
structure BugExtractor where
  feature_extractors : List FeatureExtractor
  cleanup_functions : List CleanupFunction
  rollback : Bool
  merge_data : Bool

/-- Embedding of `BugExtractor.__init__` (bug_features.py lines 703-724): the
two `assert len(set(type(..))) == len(..)` guards run at construction time,
before any bug is consumed; a failing guard is an `AssertionError` carrying
the given message.  `l.dedup.length` embeds `len(set(l))`. -/
def BugExtractor.init (fes : List FeatureExtractor) (cfs : List CleanupFunction)
    (rollback : Bool) (merge_data : Bool) : Except String BugExtractor :=
  if ((fes.map (fun fe => fe.tag)).dedup).length = fes.length then
    if ((cfs.map (fun cf => cf.tag)).dedup).length = cfs.length then
      .ok ⟨fes, cfs, rollback, merge_data⟩
    else .error "Duplicate Cleanup Functions"
  else .error "Duplicate Feature Extractors"

/-- The argument passed to `apply_transform`: either one bug dict or a
2-tuple of bugs. -/
inductive BugArg where
  | bug : Bug → BugArg
  | pair : Bug → Bug → BugArg

/-- Python subscripting of the `apply_transform` argument with an integer
index.  Indexing a tuple yields its component; indexing a bug dict with an
integer raises `KeyError`, because bug dicts only have string keys. -/
def pyIndex : BugArg → ℕ → Except String Bug
  | .pair b1 _, 0 => .ok b1
  | .pair _ b2, 1 => .ok b2
  | .pair _ _, _ => .error "IndexError"
  | .bug _, _ => .error "KeyError"

/-- Python access to `bug["creator"]` on the `apply_transform` argument: only
valid on a bug dict, a tuple raises `TypeError`. -/
def asBug : BugArg → Except String Bug
  | .bug b => .ok b
  | .pair _ _ => .error "TypeError"

/-- The mutable state owned by `transform`: the `reporter_experience_map`
(a `defaultdict(int)` keyed by creator) and the `already_rollbacked` id set. -/
structure XState where
  rem : String → ℕ
  already : List ℤ

/-- The state at the start of `transform`. -/
def initState : XState := ⟨fun _ => 0, []⟩

/-- Embedding of the `if is_couple:` prologue of `apply_transform`
(bug_features.py lines 747-757).  Both components are indexed out of the
argument first; when rollback is configured and an id is not yet in
`already_rollbacked`, the source executes `bug[0] = bug_snapshot.rollback(..)`
whose assignment raises `TypeError`, tuples being immutable, so the rolled
back value is discarded and the state never changes. -/
def coupleSetup (rollback : Bool) (st : XState) (a : BugArg) : Except String XState := do
  let b1 ← pyIndex a 0
  let b2 ← pyIndex a 1
  if rollback ∧ ¬ (b1.id ∈ st.already ∧ b2.id ∈ st.already) then
    .error "TypeError"
  else pure st

/-- One iteration of the feature loop of `apply_transform` (bug_features.py
lines 761-786): dispatch on the extractor family and the mode, skip `None`
results, expand list/set results into boolean presence columns named
`"<item> in <displayName>"`, store scalar results under the display name.
The wildcard arm covers the family/mode/argument combinations the dispatch
skips with `res = None`; the one mismatched combination the source could
reach (a couple extractor applied to a single bug dict) is cut off earlier
by the failing tuple indexing in `coupleSetup`. -/
def featureStep (is_couple : Bool) (rem : String → ℕ) (arg : BugArg)
    (data : RowData) (fe : FeatureExtractor) : RowData :=
  let res : FeatureRes :=
    match fe.kind, is_couple, arg with
    | .single, false, .bug b => fe.applySingle b (rem b.creator)
    | .couple, true, .pair b1 b2 => fe.applyCouple b1 b2
    | _, _, _ => .pynone
  match res with
  | .pynone => data
  | .list items =>
    items.foldl (fun d item => dinsert d (item ++ " in " ++ fe.displayName) (.bool true)) data
  | .scalar v => dinsert data fe.displayName v

/-- The cleanup loop of `apply_transform` (bug_features.py lines 799-801):
each cleanup function is applied in configured order to the running summary
and mapped over the running comment list. -/
def runCleanups (cfs : List CleanupFunction) (summary : String)
    (comments : List String) : String × List String :=
  cfs.foldl (fun p cf => (cf.run p.1, p.2.map cf.run)) (summary, comments)

/-- The row produced by `apply_transform`: couple calls return only the
feature dict (`{"data": data}`), single calls also return the cleaned title,
first comment and joined comments. -/
inductive RowOut where
  | coupleRow : RowData → RowOut
  | singleRow : RowData → String → String → String → RowOut
  deriving DecidableEq

/-- Embedding of `apply_transform` (bug_features.py lines 746-808).
`is_couple` is the closure variable computed once from the first input
element; note that it is NOT recomputed from the argument.  After the couple
prologue and the feature loop, the creator counters of the map are bumped
(after the features were computed, so the produced row itself saw the old
counts) and the row is assembled. -/
def apply_transform (is_couple : Bool) (rollback : Bool)
    (fes : List FeatureExtractor) (cfs : List CleanupFunction)
    (st : XState) (arg : BugArg) : Except String (RowOut × XState) := do
  let st ← if is_couple then coupleSetup rollback st arg else pure st
  let data := fes.foldl (featureStep is_couple st.rem arg) []
  if is_couple then do
    let b1 ← pyIndex arg 0
    let b2 ← pyIndex arg 1
    let rem1 := Function.update st.rem b1.creator (st.rem b1.creator + 1)
    let rem2 := Function.update rem1 b2.creator (rem1 b2.creator + 1)
    pure (RowOut.coupleRow data, { st with rem := rem2 })
  else do
    let b ← asBug arg
    let rem1 := Function.update st.rem b.creator (st.rem b.creator + 1)
    let sc := runCleanups cfs b.summary (b.comments.map (fun c => c.text))
    pure (RowOut.singleRow data sc.1 (sc.2.headD "") (String.intercalate " " sc.2),
      { st with rem := rem1 })

/-- One iteration of the single-bug row loop `(apply_transform(bug) for bug in
bugs_iter)` (bug_features.py line 822), threading the pipeline state. -/
def transformStep (ex : BugExtractor) (acc : List RowOut × XState) (b : Bug) :
    Except String (List RowOut × XState) := do
  let rs ← apply_transform false ex.rollback ex.feature_extractors ex.cleanup_functions
    acc.2 (.bug b)
  pure (acc.1 ++ [rs.1], rs.2)

/-- Embedding of the single-bug branch of `BugExtractor.transform`
(bug_features.py lines 733-822).  The first element is taken to detect the
mode, so an empty input raises `StopIteration`; when rollback is configured
every bug is first replaced by its rollback snapshot, in input order (the
worker pool of `apply_rollback` is order-preserving `imap`); then the rows
are produced in order while the reporter-experience map accumulates. -/
def transform_single (ex : BugExtractor) (rollbackFn : Bug → Bug)
    (bugs : List Bug) : Except String (List RowOut) :=
  match bugs with
  | [] => .error "StopIteration"
  | _ :: _ =>
    let rolled := if ex.rollback then bugs.map rollbackFn else bugs
    (rolled.foldlM (transformStep ex) ([], initState)).map (fun p => p.1)

/-- The per-pair output row of couple mode: merged text blob plus couple
features under `merge_data`, and the nine separate columns otherwise. -/
inductive CoupleRow where
  | merged : String → RowData → CoupleRow
  | separate : RowData → RowData → RowData → String → String → String → String →
      String → String → CoupleRow
  deriving DecidableEq

/-- The `data` entry of a row produced by `apply_transform`. -/
def RowOut.getData : RowOut → RowData
  | .coupleRow d => d
  | .singleRow d _ _ _ => d

/-- Python `result["title"]`: a couple-mode row has no such key. -/
def RowOut.getTitle : RowOut → Except String String
  | .coupleRow _ => .error "KeyError"
  | .singleRow _ t _ _ => .ok t

/-- Python `result["first_comment"]`. -/
def RowOut.getFirstComment : RowOut → Except String String
  | .coupleRow _ => .error "KeyError"
  | .singleRow _ _ fc _ => .ok fc

/-- Python `result["comments"]`. -/
def RowOut.getComments : RowOut → Except String String
  | .coupleRow _ => .error "KeyError"
  | .singleRow _ _ _ cm => .ok cm

/-- One iteration of the couple-mode loop of `BugExtractor.transform`
(bug_features.py lines 824-851): `apply_transform` is called on the first
bug, on the second bug, and on the pair, then the output row is assembled
from the three results according to `merge_data`. -/
def coupleStep (ex : BugExtractor) (acc : List CoupleRow × XState) (p : Bug × Bug) :
    Except String (List CoupleRow × XState) := do
  let r1 ← apply_transform true ex.rollback ex.feature_extractors ex.cleanup_functions
    acc.2 (.bug p.1)
  let r2 ← apply_transform true ex.rollback ex.feature_extractors ex.cleanup_functions
    r1.2 (.bug p.2)
  let r ← apply_transform true ex.rollback ex.feature_extractors ex.cleanup_functions
    r2.2 (.pair p.1 p.2)
  if ex.merge_data then do
    let t1 ← r1.1.getTitle
    let fc1 ← r1.1.getFirstComment
    let t2 ← r2.1.getTitle
    let fc2 ← r2.1.getFirstComment
    pure (acc.1 ++ [CoupleRow.merged (t1 ++ " " ++ fc1 ++ " " ++ t2 ++ " " ++ fc2)
      r.1.getData], r.2)
  else do
    let t1 ← r1.1.getTitle
    let t2 ← r2.1.getTitle
    let fc1 ← r1.1.getFirstComment
    let fc2 ← r2.1.getFirstComment
    let cm1 ← r1.1.getComments
    let cm2 ← r2.1.getComments
    pure (acc.1 ++ [CoupleRow.separate r1.1.getData r2.1.getData r.1.getData
      t1 t2 fc1 fc2 cm1 cm2], r.2)

/-- Embedding of the couple branch of `BugExtractor.transform` (bug_features.py
lines 733-744 and 823-852): the mode flag `is_couple` is computed once from
the first element (a tuple) and captured by the `apply_transform` closure for
every later call, including the calls on the individual bugs of each pair. -/
def transform_couple (ex : BugExtractor) (pairs : List (Bug × Bug)) :
    Except String (List CoupleRow) :=
  match pairs with
  | [] => .error "StopIteration"
  | _ :: _ =>
    (pairs.foldlM (coupleStep ex) ([], initState)).map (fun p => p.1)

/-! ### Bug snapshot rollback (spec section 4.1)

The module `bugbug/bug_snapshot.py` is not part of the sources at hand (only
its test is), so the reconstructor is modelled from the specification. -/

/-- Modelled from the spec: the field classification used by the missing
`bug_snapshot.rollback`.  Keywords and the CC list are unordered multi-valued
collections; the named scalar fields and the per-version status flags
(`cf_status_firefox*`) are set back to the `removed` value; unknown change
field names are ignored (spec section 4.1, step 2 and edge-case policy). -/
inductive FieldKind where
  | scalar
  | multival
  | ignored
  deriving DecidableEq

/-- The multi-valued (unordered collection) change fields of spec section 4.1. -/
def multiValuedFields : List String := ["keywords", "cc"]

/-- The scalar change fields named by spec section 4.1 step 2. -/
def scalarChangeFields : List String :=
  ["status", "resolution", "priority", "severity", "product", "component",
   "platform", "op_sys", "version", "target_milestone", "whiteboard", "summary"]

/-- Modelled from the spec: classify a change field name. -/
def classifyField (f : String) : FieldKind :=
  if f ∈ multiValuedFields then .multival
  else if f ∈ scalarChangeFields ∨ f.startsWith "cf_status_firefox" then .scalar
  else .ignored

/-- One field change inside a history entry: the changed field with its
`removed` and `added` display values. -/
structure Change where
  field_name : String
  removed : String
  added : String

/-- One timestamped batch of field changes (`when` is the parsed timestamp). -/
structure HistEntry where
  when : ℤ
  changes : List Change

/-- Modelled from the spec: the delimiter-aware split that turns the display
value of a multi-valued field into its items (spec section 4.1 step 2); an
empty display value lists no items. -/
def splitItems (s : String) : List String :=
  if s = "" then [] else s.splitOn ", "

/-- Modelled from the spec: a bug snapshot as the reconstructor sees it.
Scalar fields (including the per-version status flags) are a map from field
name to display value; multi-valued fields are kept as membership predicates,
the observable content of an unordered collection; the history is carried
along unchanged, rollback producing a new time-shifted copy. -/
structure SnapBug where
  scalars : String → String
  multi : String → String → Bool
  history : List HistEntry

/-- Modelled from the spec: apply the inverse edit of one change (spec
section 4.1 step 2).  A scalar field is set back to the `removed` value; for
a multi-valued field the items listed in `added` are removed and the items
listed in `removed` are added back (so an item in both ends up present);
unknown fields are ignored. -/
def undoChange (b : SnapBug) (c : Change) : SnapBug :=
  match classifyField c.field_name with
  | .scalar => { b with scalars := Function.update b.scalars c.field_name c.removed }
  | .multival =>
    { b with multi := fun f x =>
        if f = c.field_name then
          if x ∈ splitItems c.removed then true
          else if x ∈ splitItems c.added then false
          else b.multi f x
        else b.multi f x }
  | .ignored => b

/-- Insert a history entry into a list sorted descending by `when`. -/
def insertDesc (e : HistEntry) : List HistEntry → List HistEntry
  | [] => [e]
  | x :: xs => if x.when ≤ e.when then e :: x :: xs else x :: insertDesc e xs

/-- Order history entries descending by `when` (spec section 4.1 step 1). -/
def sortDesc : List HistEntry → List HistEntry
  | [] => []
  | e :: es => insertDesc e (sortDesc es)

/-- Modelled from the spec: the missing `bug_snapshot.rollback(bug, when)`.
History entries are ordered descending by `when`; every entry strictly after
the target time is undone, most recent first, each change of an entry in the
listed order (spec section 4.1; the boundary policy of section 8 keeps an
entry whose `when` equals the target).  A missing target time means rolling
back to bug creation, undoing every entry.  The result is a new snapshot;
the history itself is not rewritten. -/
def rollback (b : SnapBug) (when : Option ℤ) : SnapBug :=
  let entries := (sortDesc b.history).filter
    (fun e => when.all (fun t => t < e.when))
  entries.foldl (fun acc e => e.changes.foldl undoChange acc) b

/-! ### Concrete fixtures and proof-level characterizations -/

/-- A concrete bug with no commits at all. -/
def bugNoCommits : Bug where
  id := 1
  creator := "reporter@example.org"
  product := "Firefox"
  summary := "crash on startup"
  whiteboard := ""
  creation_time := 0
  comments := []
  commits := []

/-- The effect of undoing one change on one scalar field: the `removed` value
when the change is a scalar change of that field, nothing otherwise. -/
def sEffect (c : Change) (k : String) : Option String :=
  match classifyField c.field_name with
  | .scalar => if k = c.field_name then some c.removed else none
  | _ => none

/-- The effect of undoing one change on the membership of one item in one
multi-valued field. -/
def mEffect (c : Change) (f x : String) : Option Bool :=
  match classifyField c.field_name with
  | .multival =>
    if f = c.field_name then
      if x ∈ splitItems c.removed then some true
      else if x ∈ splitItems c.added then some false
      else none
    else none
  | _ => none

/-- A pipeline configured with only the `ReporterExperience` extractor and no
cleanup functions, as used to observe the experience context. -/
def exRE : BugExtractor where
  feature_extractors := [reporterExperience]
  cleanup_functions := []
  rollback := false
  merge_data := true

/-- The number of bugs with a given creator in a processed prefix: the
contents of the `reporter_experience_map` after that prefix. -/
def creatorCount (pre : List Bug) : String → ℕ :=
  fun c => ((pre.filter (fun x => x.creator = c)).length)

/-- The row the `exRE` pipeline produces for a bug reached after processing
`pre`. -/
def mkRowRE (pre : List Bug) (b : Bug) : RowOut :=
  RowOut.singleRow
    [("# of bugs previously opened by the reporter",
      FValue.num (((pre.filter (fun c => c.creator = b.creator)).length : ℚ)))]
    b.summary
    ((b.comments.map (fun c => c.text)).headD "")
    (String.intercalate " " (b.comments.map (fun c => c.text)))

/-- The row list the `exRE` pipeline produces for `bs` after the prefix `pre`. -/
def reRows : List Bug → List Bug → List RowOut
  | _, [] => []
  | pre, b :: bs => mkRowRE pre b :: reRows (pre ++ [b]) bs

/-- A second bug by the same reporter. -/
def bugSecond : Bug := { bugNoCommits with id := 2, summary := "second bug" }

/-- A third bug by the same reporter. -/
def bugThird : Bug := { bugNoCommits with id := 3, summary := "third bug" }

/-- Three bugs filed by the same reporter. -/
def bugsTriple : List Bug := [bugNoCommits, bugSecond, bugThird]

/-- An extractor instance with display name `Keywords` whose result on every
bug is the list `["a", "b"]`. -/
def keywordsLikeFE : FeatureExtractor where
  tag := "Keywords"
  name := none
  kind := .single
  applySingle := fun _ _ => .list ["a", "b"]
  applyCouple := fun _ _ => .pynone

/-- An extractor instance whose result on every bug is Python `None` (as
`HasSTR` behaves on a bug whose `cf_has_str` field is unset). -/
def alwaysNoneFE : FeatureExtractor where
  tag := "HasSTR"
  name := some "Has STR"
  kind := .single
  applySingle := fun _ _ => .pynone
  applyCouple := fun _ _ => .pynone

/-! ### Helper lemmas -/

/-- Accumulating appends in a left fold is a flat map. -/
lemma foldl_append_eq_flatMap {α β : Type} (l : List α) (g : α → List β) :
    ∀ acc : List β, l.foldl (fun a x => a ++ g x) acc = acc ++ l.flatMap g := by
  induction l with
  | nil => intro acc; simp
  | cons x xs ih => intro acc; simp [ih, List.append_assoc]

/-- Mapping over a filter is the filter-map with an if. -/
lemma map_filter_eq_filterMap {α β : Type} (p : α → Bool) (f : α → β) :
    ∀ l : List α,
      (l.filter p).map f = l.filterMap (fun x => if p x then some (f x) else none) := by
  intro l
  induction l with
  | nil => rfl
  | cons x xs ih => by_cases h : p x <;> simp [List.filter_cons, h, ih]

/-! ### C2: whiteboard tokenizer on the example input -/

/-- C2: the claim that the tokens of `"[fixed-in-fx70] foo:bar baz"` include
`"fixed-in-fx70"`, `"foo:bar"`, `"foo"` and `"baz"` is false: the chunk after
the closing bracket is not split on spaces, so neither `"foo:bar"` nor
`"baz"` is among the tokens. -/
theorem c2_example_tokens_counterexample :
    (whiteboard_keywords "[fixed-in-fx70] foo:bar baz").contains "foo:bar" = false ∧
    (whiteboard_keywords "[fixed-in-fx70] foo:bar baz").contains "baz" = false := by
  decide

/-- C2 (amended): the tokenizer output for `"[fixed-in-fx70] foo:bar baz"` is
exactly `["fixed-in-fx70", "foo:bar baz", "foo"]`: it includes
`"fixed-in-fx70"` and `"foo"`, while the text after the bracketed tag stays
the single token `"foo:bar baz"`, so `"foo:bar"` and `"baz"` do not appear. -/
theorem c2_example_tokens_amended :
    whiteboard_keywords "[fixed-in-fx70] foo:bar baz" =
      ["fixed-in-fx70", "foo:bar baz", "foo"] := by
  decide

/-! ### C3: the tokenizer matches the described algorithm -/

/-- C3: for every whiteboard string, the output of `whiteboard_keywords`
equals the algorithm as the specification words it: lower-case, split on the
opening bracket, split each chunk on the closing bracket when it contains one
and otherwise on spaces, strip and discard empty pieces, then for every kept
token containing a colon additionally append the part before the first colon
while keeping the full token. -/
theorem c3_whiteboard_tokenizer_matches_spec (s : String) :
    whiteboard_keywords s = whiteboard_keywords_spec s := by
  have hbody :
      (fun (acc : List String) ps =>
        if pyContains ps ']' then acc ++ pySplit ps ']' else acc ++ pySplit ps ' ')
      = fun (acc : List String) ps =>
        acc ++ (if pyContains ps ']' then pySplit ps ']' else pySplit ps ' ') := by
    funext acc ps
    by_cases h : pyContains ps ']' <;> simp [h]
  simp only [whiteboard_keywords, whiteboard_keywords_spec, hbody,
    foldl_append_eq_flatMap, List.nil_append,
    map_filter_eq_filterMap]

/-! ### C8: pair feature symmetry -/

/-- C8: `IsSameProduct` is symmetric in its two bugs, and
`CoupleDeltaCreationDate` on a swapped pair is the negation of its value on
the original pair. -/
theorem c8_pair_feature_symmetry (X Y : Bug) :
    IsSameProduct (X, Y) = IsSameProduct (Y, X) ∧
    CoupleDeltaCreationDate (X, Y) = - CoupleDeltaCreationDate (Y, X) := by
  constructor
  · exact decide_eq_decide.mpr eq_comm
  · simp only [CoupleDeltaCreationDate]
    push_cast
    ring

/-! ### C10: experience averages divide by the number of kept commits -/

/-- C10: on any bug whose commit list is empty or whose commits are all
backed out, the four experience-average extractors divide by the number of
kept commits, which is zero, and raise `ZeroDivisionError` instead of
returning `None`. -/
theorem c10_experience_division_by_zero (bug : Bug)
    (h : keptCommits bug = []) :
    CommitAuthorExperience bug = .error "ZeroDivisionError" ∧
    CommitAuthorExperience90Days bug = .error "ZeroDivisionError" ∧
    CommitReviewerExperience bug = .error "ZeroDivisionError" ∧
    CommitReviewerExperience90Days bug = .error "ZeroDivisionError" := by
  refine ⟨?_, ?_, ?_, ?_⟩ <;>
    simp [CommitAuthorExperience, CommitAuthorExperience90Days,
      CommitReviewerExperience, CommitReviewerExperience90Days, h]

/-- Witness for C10 at a bug with an empty commit list. -/
theorem c10_experience_division_by_zero_witness :
    keptCommits bugNoCommits = [] ∧
    (CommitAuthorExperience bugNoCommits = .error "ZeroDivisionError" ∧
     CommitAuthorExperience90Days bugNoCommits = .error "ZeroDivisionError" ∧
     CommitReviewerExperience bugNoCommits = .error "ZeroDivisionError" ∧
     CommitReviewerExperience90Days bugNoCommits = .error "ZeroDivisionError") :=
  ⟨rfl, c10_experience_division_by_zero bugNoCommits rfl⟩

/-! ### C6: duplicate extractor types fail at construction time -/

/-- C6: constructing a `BugExtractor` whose extractor list repeats a type
fails with the `Duplicate Feature Extractors` configuration error; the guard
runs in `__init__`, before any input element is consumed or any row is
produced. -/
theorem c6_duplicate_extractor_types_rejected (fes : List FeatureExtractor)
    (cfs : List CleanupFunction) (rollback merge_data : Bool)
    (h : ¬ (fes.map (fun fe => fe.tag)).Nodup) :
    BugExtractor.init fes cfs rollback merge_data =
      .error "Duplicate Feature Extractors" := by
  have hne : ((fes.map (fun fe => fe.tag)).dedup).length ≠ fes.length := by
    intro hlen
    apply h
    have hsub := List.dedup_sublist (fes.map fun fe => fe.tag)
    have hlen2 : ((fes.map (fun fe => fe.tag)).dedup).length
        = (fes.map fun fe => fe.tag).length := by
      rw [hlen, List.length_map]
    exact List.dedup_eq_self.mp (hsub.eq_of_length hlen2)
  simp [BugExtractor.init, hne]

/-- Witness for C6: two extractor instances of the same type. -/
theorem c6_duplicate_extractor_types_rejected_witness :
    (¬ (([reporterExperience, reporterExperience].map (fun fe => fe.tag)).Nodup)) ∧
    BugExtractor.init [reporterExperience, reporterExperience] [] false true =
      .error "Duplicate Feature Extractors" :=
  ⟨by decide, c6_duplicate_extractor_types_rejected _ _ _ _ (by decide)⟩

/-! ### C1: pair mode always raises -/

/-- C1: for every configuration and every nonempty sequence of bug pairs, the
couple branch of `transform` raises instead of producing rows.  The closure
variable `is_couple` stays true while `apply_transform(bug[0])` receives a
plain bug dict, so the prologue `bug1_id = bug[0]["id"]` indexes a dict with
the integer key 0 and raises `KeyError` on the very first pair. -/
theorem c1_pair_mode_raises (ex : BugExtractor) (b1 b2 : Bug)
    (rest : List (Bug × Bug)) :
    transform_couple ex ((b1, b2) :: rest) = .error "KeyError" := rfl

/-! ### C9: rollback idempotence -/

/-- Undoing a change never rewrites the history. -/
lemma undoChange_history (b : SnapBug) (c : Change) :
    (undoChange b c).history = b.history := by
  unfold undoChange
  cases classifyField c.field_name <;> rfl

/-- Undoing a change list never rewrites the history. -/
lemma foldl_undoChange_history (cs : List Change) :
    ∀ b : SnapBug, (cs.foldl undoChange b).history = b.history := by
  induction cs with
  | nil => intro b; rfl
  | cons c cs ih => intro b; rw [List.foldl_cons, ih, undoChange_history]

/-- The nested fold over entries and their changes is the fold over the
flattened change list. -/
lemma foldl_entries_eq_flat (es : List HistEntry) :
    ∀ b : SnapBug,
      es.foldl (fun acc e => e.changes.foldl undoChange acc) b
        = (es.flatMap (fun e => e.changes)).foldl undoChange b := by
  induction es with
  | nil => intro b; rfl
  | cons e es ih => intro b; simp [ih, List.foldl_append]

/-- Pointwise characterization of the scalar component of an undo fold. -/
lemma foldl_undoChange_scalars (cs : List Change) :
    ∀ (b : SnapBug) (k : String),
      (cs.foldl undoChange b).scalars k
        = cs.foldl (fun v c => (sEffect c k).getD v) (b.scalars k) := by
  induction cs with
  | nil => intro b k; rfl
  | cons c cs ih =>
    intro b k
    rw [List.foldl_cons, List.foldl_cons, ih]
    have hstep : (undoChange b c).scalars k = (sEffect c k).getD (b.scalars k) := by
      unfold undoChange sEffect
      cases classifyField c.field_name with
      | scalar =>
        by_cases hk : k = c.field_name <;> simp [Function.update_apply, hk]
      | multival => rfl
      | ignored => rfl
    rw [hstep]

/-- Pointwise characterization of the multi-valued component of an undo fold. -/
lemma foldl_undoChange_multi (cs : List Change) :
    ∀ (b : SnapBug) (f x : String),
      (cs.foldl undoChange b).multi f x
        = cs.foldl (fun v c => (mEffect c f x).getD v) (b.multi f x) := by
  induction cs with
  | nil => intro b f x; rfl
  | cons c cs ih =>
    intro b f x
    rw [List.foldl_cons, List.foldl_cons, ih]
    have hstep : (undoChange b c).multi f x = (mEffect c f x).getD (b.multi f x) := by
      unfold undoChange mEffect
      cases classifyField c.field_name with
      | scalar => rfl
      | multival =>
        by_cases hf : f = c.field_name
        · by_cases hr : x ∈ splitItems c.removed
          · simp [hf, hr]
          · by_cases ha : x ∈ splitItems c.added <;> simp [hf, hr, ha]
        · simp [hf]
      | ignored => rfl
    rw [hstep]

/-- A fold of optional overwrites is the fold of the materialized overwrites. -/
lemma foldl_getD_eq_filterMap {α : Type} (g : Change → Option α) (cs : List Change) :
    ∀ v : α,
      cs.foldl (fun v c => (g c).getD v) v
        = (cs.filterMap g).foldl (fun _ a => a) v := by
  induction cs with
  | nil => intro v; rfl
  | cons c cs ih =>
    intro v
    rw [List.foldl_cons]
    cases hg : g c <;> simp [List.filterMap_cons, hg, ih]

/-- Folding a keep-last step twice is the same as folding it once. -/
lemma foldl_last_idem {α : Type} (l : List α) (v : α) :
    l.foldl (fun _ a => a) (l.foldl (fun _ a => a) v) = l.foldl (fun _ a => a) v := by
  cases l with
  | nil => rfl
  | cons a l => simp

/-- A fold of optional overwrites is idempotent. -/
lemma foldl_getD_idem {α : Type} (g : Change → Option α) (cs : List Change) (v : α) :
    cs.foldl (fun v c => (g c).getD v) (cs.foldl (fun v c => (g c).getD v) v)
      = cs.foldl (fun v c => (g c).getD v) v := by
  rw [foldl_getD_eq_filterMap, foldl_getD_eq_filterMap]
  exact foldl_last_idem _ _

/-- The rollback of a snapshot keeps its history. -/
lemma rollback_history (b : SnapBug) (t : Option ℤ) :
    (rollback b t).history = b.history := by
  simp only [rollback, foldl_entries_eq_flat]
  exact foldl_undoChange_history _ b

/-- C9: rolling an already-rolled-back snapshot back to the same target time
is a no-op: `rollback (rollback b t) t = rollback b t`. -/
theorem c9_rollback_idempotent (b : SnapBug) (t : Option ℤ) :
    rollback (rollback b t) t = rollback b t := by
  have hcs :
      ∀ x : SnapBug, rollback x t
        = (((sortDesc x.history).filter
            (fun e => t.all (fun tt => tt < e.when))).flatMap (fun e => e.changes)).foldl
              undoChange x := by
    intro x
    simp only [rollback, foldl_entries_eq_flat]
  set cs := (((sortDesc b.history).filter
    (fun e => t.all (fun tt => tt < e.when))).flatMap (fun e => e.changes)) with hcs_def
  have h1 : rollback b t = cs.foldl undoChange b := hcs b
  have hhist : (rollback b t).history = b.history := rollback_history b t
  have h2 : rollback (rollback b t) t = cs.foldl undoChange (rollback b t) := by
    rw [hcs (rollback b t), hhist]
  rw [h2, h1]
  have hsc : ∀ k, ((cs.foldl undoChange (cs.foldl undoChange b)).scalars) k
      = ((cs.foldl undoChange b).scalars) k := by
    intro k
    rw [foldl_undoChange_scalars, foldl_undoChange_scalars]
    exact foldl_getD_idem _ _ _
  have hmu : ∀ f x, ((cs.foldl undoChange (cs.foldl undoChange b)).multi) f x
      = ((cs.foldl undoChange b).multi) f x := by
    intro f x
    rw [foldl_undoChange_multi, foldl_undoChange_multi]
    exact foldl_getD_idem _ _ _
  have hhi : (cs.foldl undoChange (cs.foldl undoChange b)).history
      = (cs.foldl undoChange b).history := by
    rw [foldl_undoChange_history]
  cases hfold : cs.foldl undoChange (cs.foldl undoChange b) with
  | mk s1 m1 h1' =>
    cases hfold2 : cs.foldl undoChange b with
    | mk s2 m2 h2' =>
      rw [hfold, hfold2] at hsc hmu hhi
      simp only [SnapBug.mk.injEq]
      exact ⟨funext hsc, funext (fun f => funext (hmu f)), hhi⟩

/-! ### Pipeline row lemmas -/

/-- Binding an ok value just applies the continuation. -/
lemma except_ok_bind {α β : Type} (x : α) (k : α → Except String β) :
    (Except.ok x >>= k) = k x := rfl

/-- Closed form of `apply_transform` in single-bug mode: it never raises, the
row carries the feature dict built from the current experience map and the
cleaned text fields, and the creator counter is bumped afterwards. -/
lemma apply_transform_single_ok (rb : Bool) (fes : List FeatureExtractor)
    (cfs : List CleanupFunction) (st : XState) (b : Bug) :
    apply_transform false rb fes cfs st (.bug b) =
      .ok (RowOut.singleRow (fes.foldl (featureStep false st.rem (.bug b)) [])
            (runCleanups cfs b.summary (b.comments.map (fun c => c.text))).1
            ((runCleanups cfs b.summary (b.comments.map (fun c => c.text))).2.headD "")
            (String.intercalate " "
              (runCleanups cfs b.summary (b.comments.map (fun c => c.text))).2),
          { st with rem := Function.update st.rem b.creator (st.rem b.creator + 1) }) := rfl

/-- Lookup after a dict assignment: the assigned key reads the new value,
every other key is unaffected. -/
lemma dlookup_dinsert (d : RowData) (k k' : String) (v : FValue) :
    dlookup k (dinsert d k' v) = if k = k' then some v else dlookup k d := by
  induction d with
  | nil =>
    by_cases h : k = k'
    · subst h
      simp [dinsert, dlookup]
    · simp [dinsert, dlookup, h, Ne.symm h]
  | cons p d ih =>
    by_cases hp : p.1 = k'
    · by_cases hk : k = k'
      · subst hk
        simp [dinsert, dlookup, hp]
      · have hpk : ¬ (p.1 = k) := by
          intro hcon
          exact hk (hcon ▸ hp)
        simp [dinsert, dlookup, hp, hpk, hk, Ne.symm hk]
    · by_cases hpk : p.1 = k
      · have hk : ¬ (k = k') := by
          intro hcon
          exact hp (hpk.trans hcon)
        simp [dinsert, dlookup, hp, hpk, hk]
      · simp [dinsert, dlookup, hp, hpk, ih]

/-- Expanding presence columns preserves a true boolean column. -/
lemma presence_fold_preserves (n : String) (items : List String) :
    ∀ (d : RowData) (k : String), dlookup k d = some (FValue.bool true) →
      dlookup k
        (items.foldl (fun d it => dinsert d (it ++ " in " ++ n) (FValue.bool true)) d)
        = some (FValue.bool true) := by
  induction items with
  | nil => intro d k h; exact h
  | cons it its ih =>
    intro d k h
    rw [List.foldl_cons]
    apply ih
    rw [dlookup_dinsert]
    by_cases hk : k = it ++ " in " ++ n <;> simp [hk, h]

/-- Every item of the expansion ends up as a true boolean presence column. -/
lemma presence_fold_mem (n : String) (items : List String) :
    ∀ (d : RowData) (it : String), it ∈ items →
      dlookup (it ++ " in " ++ n)
        (items.foldl (fun d it => dinsert d (it ++ " in " ++ n) (FValue.bool true)) d)
        = some (FValue.bool true) := by
  induction items with
  | nil => intro d it h; cases h
  | cons x xs ih =>
    intro d it h
    rw [List.foldl_cons]
    rcases List.mem_cons.mp h with h1 | h2
    · subst h1
      apply presence_fold_preserves
      rw [dlookup_dinsert]
      simp
    · exact ih _ it h2

/-- A presence column name is strictly longer than the display name, so the
expansion never writes the bare display name. -/
lemma presence_fold_no_name (n : String) (items : List String) :
    ∀ d : RowData, dlookup n d = none →
      dlookup n
        (items.foldl (fun d it => dinsert d (it ++ " in " ++ n) (FValue.bool true)) d)
        = none := by
  induction items with
  | nil => intro d h; exact h
  | cons x xs ih =>
    intro d h
    rw [List.foldl_cons]
    apply ih
    rw [dlookup_dinsert]
    have hne : ¬ (n = x ++ " in " ++ n) := by
      intro hcon
      have hlen := congrArg String.length hcon
      rw [String.length_append, String.length_append] at hlen
      have h4 : (" in " : String).length = 4 := rfl
      omega
    simp [hne, h]

/-! ### C5: list results expand into presence columns -/

/-- C5: when an extractor returns a list, the produced row has a true boolean
column named `"<item> in <display name>"` for every item of the result, and
no column named after the extractor itself. -/
theorem c5_list_result_expansion (fe : FeatureExtractor) (rb : Bool)
    (cfs : List CleanupFunction) (st : XState) (b : Bug) (items : List String)
    (hk : fe.kind = ExtractorKind.single)
    (hres : fe.applySingle b (st.rem b.creator) = FeatureRes.list items) :
    ∃ data t fc cm st',
      apply_transform false rb [fe] cfs st (.bug b) =
        .ok (RowOut.singleRow data t fc cm, st') ∧
      (∀ item ∈ items,
        dlookup (item ++ " in " ++ fe.displayName) data = some (FValue.bool true)) ∧
      dlookup fe.displayName data = none := by
  obtain ⟨tag, nm, kd, asi, acp⟩ := fe
  replace hk : kd = ExtractorKind.single := hk
  subst hk
  replace hres : asi b (st.rem b.creator) = FeatureRes.list items := hres
  have hdata :
      [(⟨tag, nm, .single, asi, acp⟩ : FeatureExtractor)].foldl
        (featureStep false st.rem (.bug b)) []
      = items.foldl
          (fun d it =>
            dinsert d (it ++ " in " ++ (nm.getD tag)) (FValue.bool true)) [] := by
    simp only [List.foldl_cons, List.foldl_nil, featureStep, hres,
      FeatureExtractor.displayName]
  refine ⟨_, _, _, _, _, apply_transform_single_ok rb _ cfs st b, ?_, ?_⟩
  · intro item hitem
    rw [hdata]
    exact presence_fold_mem _ items [] item hitem
  · rw [hdata]
    exact presence_fold_no_name _ items [] rfl

/-- Witness for C5: the `Keywords`-named extractor returning `["a", "b"]`
yields the columns `"a in Keywords"` and `"b in Keywords"`, both true, and no
`"Keywords"` column. -/
theorem c5_list_result_expansion_witness :
    keywordsLikeFE.kind = ExtractorKind.single ∧
    keywordsLikeFE.applySingle bugNoCommits (initState.rem bugNoCommits.creator)
      = FeatureRes.list ["a", "b"] ∧
    (∃ data t fc cm st',
      apply_transform false false [keywordsLikeFE] [] initState (.bug bugNoCommits) =
        .ok (RowOut.singleRow data t fc cm, st') ∧
      (∀ item ∈ ["a", "b"],
        dlookup (item ++ " in " ++ keywordsLikeFE.displayName) data
          = some (FValue.bool true)) ∧
      dlookup keywordsLikeFE.displayName data = none) :=
  ⟨rfl, rfl,
    c5_list_result_expansion keywordsLikeFE false [] initState bugNoCommits
      ["a", "b"] rfl rfl⟩

/-! ### C7: None results and sentinel values -/

/-- C7: a missing optional field or a `"--"` / `"---"` sentinel makes the
`field` helper return `None` without raising, and an extractor returning
`None` contributes no column at all to the produced row. -/
theorem c7_none_means_absent :
    (∀ (bug : BugDict) (f : String),
      (dictFind bug f = none ∨ dictFind bug f = some "--" ∨
        dictFind bug f = some "---") →
      field bug f = none) ∧
    (∀ (fe : FeatureExtractor) (rb : Bool) (cfs : List CleanupFunction)
      (st : XState) (b : Bug),
      fe.kind = ExtractorKind.single →
      fe.applySingle b (st.rem b.creator) = FeatureRes.pynone →
      ∃ t fc cm st', apply_transform false rb [fe] cfs st (.bug b) =
        .ok (RowOut.singleRow [] t fc cm, st')) := by
  constructor
  · intro bug f h
    rcases h with h | h | h <;> simp [field, h]
  · intro fe rb cfs st b hk hres
    obtain ⟨tag, nm, kd, asi, acp⟩ := fe
    replace hk : kd = ExtractorKind.single := hk
    subst hk
    replace hres : asi b (st.rem b.creator) = FeatureRes.pynone := hres
    have hdata :
        [(⟨tag, nm, .single, asi, acp⟩ : FeatureExtractor)].foldl
          (featureStep false st.rem (.bug b)) [] = [] := by
      simp only [List.foldl_cons, List.foldl_nil, featureStep, hres]
    have h2 := apply_transform_single_ok rb
      [(⟨tag, nm, .single, asi, acp⟩ : FeatureExtractor)] cfs st b
    rw [hdata] at h2
    exact ⟨_, _, _, _, h2⟩

/-- Witness for C7: a `"---"` sentinel field and an always-`None` extractor. -/
theorem c7_none_means_absent_witness :
    (dictFind [("cf_has_str", "---")] "cf_has_str" = some "---" ∧
      field [("cf_has_str", "---")] "cf_has_str" = none) ∧
    (alwaysNoneFE.kind = ExtractorKind.single ∧
      ∃ t fc cm st',
        apply_transform false false [alwaysNoneFE] [] initState (.bug bugNoCommits) =
          .ok (RowOut.singleRow [] t fc cm, st')) :=
  ⟨⟨rfl, c7_none_means_absent.1 [("cf_has_str", "---")] "cf_has_str"
      (Or.inr (Or.inr rfl))⟩,
   ⟨rfl, c7_none_means_absent.2 alwaysNoneFE false [] initState bugNoCommits
      rfl rfl⟩⟩

/-! ### C4: reporter experience accumulates in iteration order -/

/-- Appending a processed bug bumps exactly its creator in the counter map. -/
lemma creatorCount_append (pre : List Bug) (b : Bug) :
    creatorCount (pre ++ [b])
      = Function.update (creatorCount pre) b.creator
          (creatorCount pre b.creator + 1) := by
  funext c
  rw [Function.update_apply]
  by_cases h : c = b.creator
  · subst h
    simp [creatorCount, List.filter_append]
  · simp [creatorCount, List.filter_append, h, Ne.symm h]

/-- One step of the single-mode loop under the `exRE` pipeline: the produced
row reads the current count of the creator and the map is bumped afterwards. -/
lemma transformStep_exRE (pre : List Bug) (acc : List RowOut) (al : List ℤ)
    (b : Bug) :
    transformStep exRE (acc, (⟨creatorCount pre, al⟩ : XState)) b
      = .ok (acc ++ [mkRowRE pre b], (⟨creatorCount (pre ++ [b]), al⟩ : XState)) := by
  rw [creatorCount_append pre b]
  rfl

/-- Closed form of the single-mode loop under the `exRE` pipeline. -/
lemma foldlM_exRE (bs : List Bug) :
    ∀ (pre : List Bug) (acc : List RowOut) (al : List ℤ),
      bs.foldlM (transformStep exRE) (acc, (⟨creatorCount pre, al⟩ : XState))
        = .ok (acc ++ reRows pre bs, (⟨creatorCount (pre ++ bs), al⟩ : XState)) := by
  induction bs with
  | nil =>
    intro pre acc al
    simp only [List.foldlM_nil, List.append_nil, reRows]
    rfl
  | cons b bs ih =>
    intro pre acc al
    rw [List.foldlM_cons, transformStep_exRE, except_ok_bind, ih (pre ++ [b])]
    simp [reRows, List.append_assoc]

/-- Indexing the rows of the `exRE` pipeline. -/
lemma reRows_getElem (bs : List Bug) :
    ∀ (pre : List Bug) (i : ℕ) (b : Bug), bs[i]? = some b →
      (reRows pre bs)[i]? = some (mkRowRE (pre ++ bs.take i) b) := by
  induction bs with
  | nil => intro pre i b h; simp at h
  | cons x xs ih =>
    intro pre i b h
    cases i with
    | zero =>
      simp only [List.getElem?_cons_zero, Option.some.injEq] at h
      subst h
      simp [reRows]
    | succ n =>
      simp only [List.getElem?_cons_succ] at h
      simp only [reRows, List.getElem?_cons_succ]
      rw [ih (pre ++ [x]) n b h]
      simp [List.append_assoc]

/-- C4: in single-bug mode, the `reporter_experience` value supplied to the
extractors for the bug at position `i` (observed through the
`ReporterExperience` extractor) is the number of strictly earlier bugs in
iteration order with the same creator: the counter starts at zero and is
bumped only after each row is produced. -/
theorem c4_reporter_experience_in_order (bugs : List Bug)
    (rollbackFn : Bug → Bug) (i : ℕ) (bug : Bug) (hb : bugs[i]? = some bug) :
    ∃ rows, transform_single exRE rollbackFn bugs = .ok rows ∧
      rows[i]? = some (RowOut.singleRow
        [("# of bugs previously opened by the reporter",
          FValue.num (((bugs.take i).filter
            (fun c => c.creator = bug.creator)).length : ℚ))]
        bug.summary
        ((bug.comments.map (fun c => c.text)).headD "")
        (String.intercalate " " (bug.comments.map (fun c => c.text)))) := by
  cases bugs with
  | nil => simp at hb
  | cons b bs =>
    refine ⟨reRows [] (b :: bs), ?_, ?_⟩
    · have h0 : transform_single exRE rollbackFn (b :: bs)
          = (((b :: bs).foldlM (transformStep exRE)
              ([], (⟨creatorCount [], []⟩ : XState))).map (fun p => p.1)) := rfl
      rw [h0, foldlM_exRE (b :: bs) [] [] []]
      simp [Except.map]
    · have h := reRows_getElem (b :: bs) [] i bug hb
      rw [h]
      simp [mkRowRE]

/-- Witness for C4: three bugs by the same reporter; the third row sees the
count of the two earlier ones. -/
theorem c4_reporter_experience_in_order_witness :
    bugsTriple[2]? = some bugThird ∧
    (∃ rows, transform_single exRE id bugsTriple = .ok rows ∧
      rows[2]? = some (RowOut.singleRow
        [("# of bugs previously opened by the reporter",
          FValue.num (((bugsTriple.take 2).filter
            (fun c => c.creator = bugThird.creator)).length : ℚ))]
        bugThird.summary
        ((bugThird.comments.map (fun c => c.text)).headD "")
        (String.intercalate " " (bugThird.comments.map (fun c => c.text))))) :=
  ⟨rfl, c4_reporter_experience_in_order bugsTriple id 2 bugThird rfl⟩

end Bugbug
